import Mathlib

/-!
Verification development for the Enhanced-Vocab112 spaced-repetition engine.

The repository ships the engine in `client/src/lib/spacedRepetition.ts`; that
file is not among the sources available here (only its callers
`ReviewSession.tsx` and `ReviewQueueWidget.tsx`, plus the README, are), so the
engine itself is modelled from the specification (§3, §4 of the design spec):
every definition carrying a `Modelled from the spec:` doc comment is a direct
transcription of the spec's words.  The `ReviewSession` selection logic is
embedded from the actual source (`ReviewSession.tsx`).

Floating-point ease factors are embedded as exact rationals (ℚ); dates are
embedded at day granularity as natural-number day indices, so
`nextReviewAt ≤ endOfDay(asOf)` becomes `nextReviewAt ≤ asOf`.
-/

namespace SRS

/-- Modelled from the spec: the four ordered review grades
`AGAIN < HARD < GOOD < EASY` (spec §4.2); `spacedRepetition.ts` is missing
from the available sources.  The UI (`ReviewSession.tsx`) indexes them
0,1,2,3 via `qualityNames = ['again','hard','good','easy']`. -/
inductive Quality where
  | AGAIN
  | HARD
  | GOOD
  | EASY
deriving DecidableEq, Repr

/-- Modelled from the spec: the adaptation maps the 4 grades onto SM-2's
quality axis as `AGAIN→0, HARD→3, GOOD→4, EASY→5` (spec §4.2). -/
def qualityToSM2 : Quality → ℚ
  | .AGAIN => 0
  | .HARD => 3
  | .GOOD => 4
  | .EASY => 5

/-- Modelled from the spec: the per-vocabulary-item scheduling record
(spec §3); `spacedRepetition.ts` is missing from the available sources.
Dates are day indices; `easeFactor` is an exact rational; `lifecycleState`
is derived, not stored, so it is not a field. -/
structure Card where
  identity : String
  lessonDay : Nat
  repetitions : Nat
  easeFactor : ℚ
  intervalDays : Nat
  lastReviewedAt : Option Nat
  nextReviewAt : Nat
deriving DecidableEq, Repr

/-- Modelled from the spec: the ease-factor update applied on every review,
pass or fail: `EF' = EF + (0.1 − (5−Q) × (0.08 + (5−Q) × 0.02))`, then clamp
`EF' = max(EF', 1.3)` (spec §4.2 step 1). -/
def updateEaseFactor (ef : ℚ) (q : Quality) : ℚ :=
  let sm2q := qualityToSM2 q
  max (ef + (1/10 - (5 - sm2q) * (8/100 + (5 - sm2q) * (2/100)))) (13/10)

/-- Modelled from the spec: the new interval on a passing review
(spec §4.2 step 3): 1 day at `repetitions' = 1`, 6 days at
`repetitions' = 2`, else `round(intervalDays × EF')`, where `HARD` caps the
growth multiplier at ×1.2 and `EASY` adds one bonus day to the computed
interval. -/
def successInterval (q : Quality) (reps' : Nat) (intervalDays : Nat)
    (ef' : ℚ) : Nat :=
  if reps' = 1 then 1
  else if reps' = 2 then 6
  else if q = .HARD then (round ((intervalDays : ℚ) * min ef' (6/5))).toNat
  else if q = .EASY then (round ((intervalDays : ℚ) * ef')).toNat + 1
  else (round ((intervalDays : ℚ) * ef')).toNat

/-- Modelled from the spec: the pure Scheduler transformation
`(Card, Quality) → Card'` (spec §4.2): the ease factor is updated on every
review; `AGAIN` resets `repetitions` to 0 and sets a 1-day interval; a
passing grade increments `repetitions` and applies `successInterval`;
`nextReviewAt' = now + intervalDays'` and `lastReviewedAt' = now`
(spec §4.2 steps 1-4). -/
def gradeReview (c : Card) (q : Quality) (now : Nat) : Card :=
  let ef' := updateEaseFactor c.easeFactor q
  if q = .AGAIN then
    { c with repetitions := 0, intervalDays := 1, easeFactor := ef',
             lastReviewedAt := some now, nextReviewAt := now + 1 }
  else
    let reps' := c.repetitions + 1
    let iv := successInterval q reps' c.intervalDays ef'
    { c with repetitions := reps', intervalDays := iv, easeFactor := ef',
             lastReviewedAt := some now, nextReviewAt := now + iv }

/-- A whole review history folded through the Scheduler: each entry is a
grade together with the day the review happened. -/
def gradeHistory (c : Card) (history : List (Quality × Nat)) : Card :=
  history.foldl (fun acc e => gradeReview acc e.1 e.2) c

/-- Modelled from the spec: derived lifecycle classification (spec §4.2
step 5): `new` if `repetitions == 0`, `learning` while `intervalDays < 21`,
`mastered` from 21 days on. -/
inductive Lifecycle where
  | new
  | learning
  | mastered
deriving DecidableEq, Repr

/-- Modelled from the spec: the pure classification function of
`repetitions` and `intervalDays` (spec §4.2 step 5, §9). -/
def lifecycleState (c : Card) : Lifecycle :=
  if c.repetitions = 0 then .new
  else if c.intervalDays < 21 then .learning
  else .mastered

/-- Modelled from the spec: the record `upsertNew` creates for a fresh
identity: `repetitions=0`, `easeFactor=2.5`, `intervalDays=0`,
`nextReviewAt = today` (spec §4.1). -/
def freshCard (identity : String) (lessonDay : Nat) (today : Nat) : Card :=
  { identity := identity, lessonDay := lessonDay, repetitions := 0,
    easeFactor := 5/2, intervalDays := 0, lastReviewedAt := none,
    nextReviewAt := today }

/-- Modelled from the spec: `upsertNew(identity, lessonDay)` creates a Card
if absent and is a no-op (no error) if the identity already exists
(spec §4.1).  The store is the insertion-ordered list of Cards. -/
def upsertNew (store : List Card) (identity : String) (lessonDay : Nat)
    (today : Nat) : List Card :=
  if store.any (fun c => c.identity == identity) then store
  else store ++ [freshCard identity lessonDay today]

/-- Modelled from the spec: `dueNow(asOf)` returns all cards with
`nextReviewAt ≤ endOfDay(asOf)` — at day granularity, `nextReviewAt ≤ asOf`
(spec §4.3). -/
def dueNow (store : List Card) (asOf : Nat) : List Card :=
  store.filter (fun c => decide (c.nextReviewAt ≤ asOf))

/-- Modelled from the spec: `dueWithin(days, asOf)` returns all cards with
`nextReviewAt` in the half-open window `[today, today + days)` (spec §4.3). -/
def dueWithin (store : List Card) (days : Nat) (asOf : Nat) : List Card :=
  store.filter
    (fun c => decide (asOf ≤ c.nextReviewAt ∧ c.nextReviewAt < asOf + days))

/-- Modelled from the spec: the aggregate counters returned by `stats()`
(spec §4.3). -/
structure Stats where
  totalCards : Nat
  dueToday : Nat
  dueThisWeek : Nat
  newCards : Nat
  learningCards : Nat
  masteredCards : Nat
deriving DecidableEq, Repr

/-- Modelled from the spec: `stats(asOf)` aggregates `totalCards`,
`dueToday = |dueNow(asOf)|`, `dueThisWeek = |dueWithin(7, asOf)|`, and the
per-lifecycle counts by the derived classification (spec §4.3). -/
def stats (store : List Card) (asOf : Nat) : Stats :=
  { totalCards := store.length
    dueToday := (dueNow store asOf).length
    dueThisWeek := (dueWithin store 7 asOf).length
    newCards :=
      (store.filter (fun c => decide (lifecycleState c = .new))).length
    learningCards :=
      (store.filter (fun c => decide (lifecycleState c = .learning))).length
    masteredCards :=
      (store.filter (fun c => decide (lifecycleState c = .mastered))).length }

/-- Modelled from the spec: the error taxonomy relevant to the Scheduler —
`NotFound` for an unregistered identity, `InvalidQuality` for a grade
outside the four defined values (spec §7). -/
inductive SRSError where
  | NotFound
  | InvalidQuality
deriving DecidableEq, Repr

/-- Modelled from the spec: a raw numeric grade maps to a `Quality` only
for the four defined values 0..3 (the UI's `ReviewQuality` indices);
anything else is outside the enumeration (spec §7). -/
def parseQuality (g : Nat) : Option Quality :=
  if g = 0 then some .AGAIN
  else if g = 1 then some .HARD
  else if g = 2 then some .GOOD
  else if g = 3 then some .EASY
  else none

/-- Modelled from the spec: `get(identity)` — look a card up by its
identity key (spec §4.1). -/
def findCard (store : List Card) (identity : String) : Option Card :=
  store.find? (fun c => c.identity == identity)

/-- Modelled from the spec: `gradeReview(identity, quality)` at the store
boundary (spec §6, §7): signals `InvalidQuality` for a grade outside the
four defined values, `NotFound` for an unregistered identity, and otherwise
returns the updated store together with the freshly built record — the
input record is never altered, only replaced wholesale. -/
def gradeReviewStore (store : List Card) (identity : String) (g : Nat)
    (now : Nat) : Except SRSError (List Card × Card) :=
  match parseQuality g with
  | none => .error .InvalidQuality
  | some q =>
    match findCard store identity with
    | none => .error .NotFound
    | some c =>
      let c' := gradeReview c q now
      .ok (store.map (fun d => if d.identity == identity then c' else d), c')

/-- Modelled from the spec: the commit step — on success the new store is
kept, on error the old store is retained unchanged (atomicity, spec §4.2
error conditions). -/
def commitGrade (store : List Card) (identity : String) (g : Nat)
    (now : Nat) : List Card :=
  match gradeReviewStore store identity g now with
  | .error _ => store
  | .ok r => r.1

/-- From `ReviewSession.tsx`: the default value of the `maxCards` prop
(`maxCards = 20`). -/
def defaultMaxCards : Nat := 20

/-- From `ReviewSession.tsx`:
`dueCards.slice(0, Math.min(maxCards, dueCards.length))` — the cards one
session presents. -/
def sessionCards (dueCards : List Card) (maxCards : Nat) : List Card :=
  dueCards.take (min maxCards dueCards.length)

/-- From `ReviewSession.tsx`: `if (sessionCards.length === 0)
setSessionComplete(true)` — the session starts complete exactly when no
card was selected. -/
def initialSessionComplete (dueCards : List Card) (maxCards : Nat) : Bool :=
  (sessionCards dueCards maxCards).length == 0

/-- A concrete card used by the scenario parts of the claims:
`repetitions=2, intervalDays=6, easeFactor=2.5` (spec §8). -/
def growthCard : Card :=
  { identity := "word", lessonDay := 1, repetitions := 2, easeFactor := 5/2,
    intervalDays := 6, lastReviewedAt := some 0, nextReviewAt := 6 }

end SRS

namespace SRS

/-- The single-step ease-factor lower bound: whatever the grade, the
clamped update is at least 1.3. -/
theorem updateEaseFactor_lower_bound (ef : ℚ) (q : Quality) :
    (13:ℚ)/10 ≤ updateEaseFactor ef q := by
  unfold updateEaseFactor
  exact le_max_right _ _

/-- Rounding a product against a capped multiplier never exceeds rounding
against the cap itself (used for the `HARD` ×1.2 cap). -/
theorem round_toNat_mul_min_le (i : Nat) (ef b : ℚ) :
    (round ((i : ℚ) * min ef b)).toNat ≤ (round ((i : ℚ) * b)).toNat := by
  apply Int.toNat_le_toNat
  rw [round_eq, round_eq]
  apply Int.floor_mono
  have hle : (i : ℚ) * min ef b ≤ (i : ℚ) * b :=
    mul_le_mul_of_nonneg_left (min_le_right _ _) (by positivity)
  linarith

/-- C1: one `gradeReview` application updates the ease factor by mapping
the grade via AGAIN→0, HARD→3, GOOD→4, EASY→5 to an SM-2 quality Q and
computing `EF' = EF + (0.1 − (5−Q)(0.08 + (5−Q)·0.02))` clamped to
`max(EF', 1.3)`, on every review, failing grades included; in particular
the `repetitions=2, intervalDays=6, easeFactor=2.5` card graded GOOD gets
the formula's value at Q=4, namely 2.5 again. -/
theorem gradeReview_easeFactor_formula :
    (∀ (c : Card) (q : Quality) (now : Nat),
      (gradeReview c q now).easeFactor =
        max (c.easeFactor + (1/10 - (5 - qualityToSM2 q) *
          (8/100 + (5 - qualityToSM2 q) * (2/100)))) (13/10)) ∧
    (gradeReview growthCard .GOOD 10).easeFactor =
      max ((5:ℚ)/2 + (1/10 - (5 - 4) * (8/100 + (5 - 4) * (2/100)))) (13/10) ∧
    (gradeReview growthCard .GOOD 10).easeFactor = 5/2 := by
  refine ⟨fun c q now => ?_, ?_, ?_⟩
  · cases q <;> simp [gradeReview, updateEaseFactor]
  · with_unfolding_all rfl
  · with_unfolding_all rfl

/-- On a passing grade the Scheduler takes the success branch: a record
with the incremented repetition count and the `successInterval` interval. -/
theorem gradeReview_not_again (c : Card) (q : Quality) (now : Nat)
    (h : q ≠ .AGAIN) :
    gradeReview c q now =
      { c with repetitions := c.repetitions + 1,
               intervalDays := successInterval q (c.repetitions + 1)
                 c.intervalDays (updateEaseFactor c.easeFactor q),
               easeFactor := updateEaseFactor c.easeFactor q,
               lastReviewedAt := some now,
               nextReviewAt := now + successInterval q (c.repetitions + 1)
                 c.intervalDays (updateEaseFactor c.easeFactor q) } := by
  simp [gradeReview, h]

/-- C2: on a passing grade (`HARD`, `GOOD`, `EASY`) `gradeReview`
increments `repetitions` and sets the interval to 1 day at
`repetitions' = 1`, 6 days at `repetitions' = 2`, and
`round(intervalDays × EF')` from `repetitions' = 3` on, where `HARD` caps
the growth multiplier at ×1.2 (so the interval never exceeds
`round(intervalDays × 1.2)`) and `EASY` adds one extra day to the computed
interval. -/
theorem gradeReview_success_branch (c : Card) (q : Quality) (now : Nat)
    (h : q ≠ .AGAIN) :
    (gradeReview c q now).repetitions = c.repetitions + 1 ∧
    ((gradeReview c q now).repetitions = 1 →
      (gradeReview c q now).intervalDays = 1) ∧
    ((gradeReview c q now).repetitions = 2 →
      (gradeReview c q now).intervalDays = 6) ∧
    (3 ≤ (gradeReview c q now).repetitions →
      (q = .GOOD →
        (gradeReview c q now).intervalDays =
          (round ((c.intervalDays : ℚ) *
            (gradeReview c q now).easeFactor)).toNat) ∧
      (q = .HARD →
        (gradeReview c q now).intervalDays =
          (round ((c.intervalDays : ℚ) *
            min (gradeReview c q now).easeFactor (6/5))).toNat ∧
        (gradeReview c q now).intervalDays ≤
          (round ((c.intervalDays : ℚ) * (6/5))).toNat) ∧
      (q = .EASY →
        (gradeReview c q now).intervalDays =
          (round ((c.intervalDays : ℚ) *
            (gradeReview c q now).easeFactor)).toNat + 1)) := by
  have e := gradeReview_not_again c q now h
  rw [e]
  simp only
  refine ⟨by trivial, ?_, ?_, ?_⟩
  · intro h1
    have hc : c.repetitions = 0 := by omega
    simp [successInterval, hc]
  · intro h2
    have hc : c.repetitions = 1 := by omega
    simp [successInterval, hc]
  · intro h3
    have hne1 : ¬(c.repetitions + 1 = 1) := by omega
    have hne2 : ¬(c.repetitions + 1 = 2) := by omega
    refine ⟨fun hq => ?_, fun hq => ?_, fun hq => ?_⟩
    · subst hq
      simp [successInterval, hne1, hne2]
    · subst hq
      refine ⟨by simp [successInterval, hne1, hne2], ?_⟩
      have hs : successInterval .HARD (c.repetitions + 1) c.intervalDays
          (updateEaseFactor c.easeFactor .HARD) =
          (round ((c.intervalDays : ℚ) *
            min (updateEaseFactor c.easeFactor .HARD) (6/5))).toNat := by
        simp [successInterval, hne1, hne2]
      rw [hs]
      exact round_toNat_mul_min_le _ _ _
    · subst hq
      simp [successInterval, hne1, hne2]

/-- Witness for C2: the spec's standard-growth scenario card graded GOOD. -/
theorem gradeReview_success_branch_witness :
    Quality.GOOD ≠ Quality.AGAIN ∧
    (gradeReview growthCard .GOOD 10).repetitions =
      growthCard.repetitions + 1 :=
  ⟨by decide,
   (gradeReview_success_branch growthCard .GOOD 10 (by decide)).1⟩

/-- C3: grading a card `AGAIN` resets `repetitions` to 0, sets a 1-day
interval and makes the card due the next day; in particular a brand-new
card (`repetitions=0, easeFactor=2.5, intervalDays=0`) graded `AGAIN` ends
with `repetitions=0`, `intervalDays=1` and `nextReviewAt = today + 1`. -/
theorem gradeReview_again_branch :
    (∀ (c : Card) (now : Nat),
      (gradeReview c .AGAIN now).repetitions = 0 ∧
      (gradeReview c .AGAIN now).intervalDays = 1 ∧
      (gradeReview c .AGAIN now).nextReviewAt = now + 1) ∧
    (∀ today : Nat,
      ((freshCard "w" 1 today).repetitions = 0 ∧
       (freshCard "w" 1 today).easeFactor = 5/2 ∧
       (freshCard "w" 1 today).intervalDays = 0) ∧
      (gradeReview (freshCard "w" 1 today) .AGAIN today).repetitions = 0 ∧
      (gradeReview (freshCard "w" 1 today) .AGAIN today).intervalDays = 1 ∧
      (gradeReview (freshCard "w" 1 today) .AGAIN today).nextReviewAt =
        today + 1) := by
  constructor
  · intro c now
    refine ⟨?_, ?_, ?_⟩ <;> simp [gradeReview]
  · intro today
    refine ⟨⟨rfl, rfl, rfl⟩, ?_, ?_, ?_⟩ <;> simp [gradeReview, freshCard]

/-- One review step keeps the ease factor at or above 1.3 whatever the
input ease factor and grade are. -/
theorem gradeReview_easeFactor_ge (c : Card) (q : Quality) (now : Nat) :
    (13:ℚ)/10 ≤ (gradeReview c q now).easeFactor := by
  cases q <;> simp [gradeReview] <;>
    exact updateEaseFactor_lower_bound _ _

/-- C4: starting from any card with `easeFactor ≥ 1.3`, every sequence of
`gradeReview` calls leaves `easeFactor ≥ 1.3` — the lower bound is an
invariant no input history can violate. -/
theorem easeFactor_invariant (c : Card) (h : (13:ℚ)/10 ≤ c.easeFactor)
    (history : List (Quality × Nat)) :
    (13:ℚ)/10 ≤ (gradeHistory c history).easeFactor := by
  induction history generalizing c with
  | nil => simpa [gradeHistory] using h
  | cons e rest ih =>
      have step : (13:ℚ)/10 ≤ (gradeReview c e.1 e.2).easeFactor :=
        gradeReview_easeFactor_ge c e.1 e.2
      simpa [gradeHistory] using ih _ step

/-- Witness for C4: a fresh card (ease factor 2.5) after a concrete
three-review history. -/
theorem easeFactor_invariant_witness :
    (13:ℚ)/10 ≤ (freshCard "w" 1 0).easeFactor ∧
    (13:ℚ)/10 ≤ (gradeHistory (freshCard "w" 1 0)
      [(.AGAIN, 0), (.GOOD, 1), (.HARD, 2)]).easeFactor :=
  ⟨by with_unfolding_all decide,
   easeFactor_invariant _ (by with_unfolding_all decide) _⟩

/-- C5: the lifecycle state is a pure function of `repetitions` and
`intervalDays` (never a stored field): `new` at `repetitions = 0`,
`learning` at `repetitions ≥ 1` with `intervalDays < 21`, `mastered` at
`intervalDays ≥ 21`; a card whose interval reaches 21 days is counted
mastered by the very next `stats()` call with no separate action.  The
hypothesis excludes the contradictory corner `repetitions = 0` with
`intervalDays ≥ 21`, which the engine never produces (a failed review sets
`intervalDays = 1` and a new card has `intervalDays = 0`). -/
theorem lifecycleState_derived (c : Card)
    (h : c.repetitions = 0 → c.intervalDays < 21) :
    (c.repetitions = 0 → lifecycleState c = .new) ∧
    (1 ≤ c.repetitions → c.intervalDays < 21 →
      lifecycleState c = .learning) ∧
    (21 ≤ c.intervalDays → lifecycleState c = .mastered) ∧
    (∀ d : Card, d.repetitions = c.repetitions →
      d.intervalDays = c.intervalDays →
      lifecycleState d = lifecycleState c) ∧
    (∀ (store : List Card) (asOf : Nat), c ∈ store →
      21 ≤ c.intervalDays → 1 ≤ (stats store asOf).masteredCards) := by
  have hmast : 21 ≤ c.intervalDays → lifecycleState c = .mastered := by
    intro h21
    rw [lifecycleState, if_neg (fun h0 => absurd (h h0) (by omega)),
      if_neg (by omega)]
  refine ⟨fun h0 => ?_, fun h1 h2 => ?_, hmast, fun d hd1 hd2 => ?_,
    fun store asOf hmem h21 => ?_⟩
  · simp [lifecycleState, h0]
  · rw [lifecycleState, if_neg (by omega), if_pos h2]
  · simp [lifecycleState, hd1, hd2]
  · have hmem' : c ∈ store.filter
        (fun c => decide (lifecycleState c = .mastered)) :=
      List.mem_filter.mpr ⟨hmem, by simp [hmast h21]⟩
    have hp := List.length_pos_of_mem hmem'
    simpa [stats] using hp

/-- A concrete mastered card used by the C5 witness. -/
def masteredCard : Card :=
  { identity := "m", lessonDay := 1, repetitions := 3, easeFactor := 5/2,
    intervalDays := 21, lastReviewedAt := some 0, nextReviewAt := 21 }

/-- Witness for C5: a card at 3 repetitions and a 21-day interval is
classified mastered. -/
theorem lifecycleState_derived_witness :
    (masteredCard.repetitions = 0 → masteredCard.intervalDays < 21) ∧
    lifecycleState masteredCard = .mastered :=
  ⟨by decide,
   (lifecycleState_derived masteredCard (by decide)).2.2.1 (by decide)⟩

/-- Each card falls in exactly one derived lifecycle class, so the three
filtered counts sum to the length of the store. -/
theorem length_filter_lifecycle (l : List Card) :
    (l.filter (fun c => decide (lifecycleState c = .new))).length +
      (l.filter (fun c => decide (lifecycleState c = .learning))).length +
      (l.filter (fun c => decide (lifecycleState c = .mastered))).length =
      l.length := by
  induction l with
  | nil => rfl
  | cons a t ih =>
      cases h : lifecycleState a <;>
        simp [List.filter_cons, h] <;> omega

/-- C6: for every store state and as-of day, the `stats()` counts satisfy
`newCards + learningCards + masteredCards = totalCards` — the derived
lifecycle classes partition the card set. -/
theorem stats_partition (store : List Card) (asOf : Nat) :
    (stats store asOf).newCards + (stats store asOf).learningCards +
      (stats store asOf).masteredCards = (stats store asOf).totalCards := by
  simpa [stats] using length_filter_lifecycle store

/-- C7: `dueNow(asOf)` returns exactly the stored cards with
`nextReviewAt ≤ asOf` (due today or overdue, at day granularity) and
`dueWithin(days, asOf)` exactly those with `nextReviewAt` in
`[asOf, asOf + days)`; consequently a stored card with
`nextReviewAt = asOf` appears in both `dueNow` and `dueWithin 7`. -/
theorem due_queries_characterization (store : List Card) (asOf days : Nat)
    (c : Card) :
    (c ∈ dueNow store asOf ↔ c ∈ store ∧ c.nextReviewAt ≤ asOf) ∧
    (c ∈ dueWithin store days asOf ↔
      c ∈ store ∧ asOf ≤ c.nextReviewAt ∧ c.nextReviewAt < asOf + days) ∧
    (c ∈ store → c.nextReviewAt = asOf →
      c ∈ dueNow store asOf ∧ c ∈ dueWithin store 7 asOf) := by
  refine ⟨?_, ?_, fun hmem heq => ?_⟩
  · simp [dueNow, List.mem_filter]
  · simp [dueWithin, List.mem_filter]
  · constructor
    · exact List.mem_filter.mpr ⟨hmem, by simp [heq]⟩
    · exact List.mem_filter.mpr ⟨hmem, by simp [heq]⟩

/-- Witness for C7: a card due exactly on day 5 is in `dueNow` and in the
7-day window. -/
theorem due_queries_characterization_witness :
    freshCard "w" 1 5 ∈ dueNow [freshCard "w" 1 5] 5 ∧
    freshCard "w" 1 5 ∈ dueWithin [freshCard "w" 1 5] 7 5 :=
  (due_queries_characterization [freshCard "w" 1 5] 5 7
    (freshCard "w" 1 5)).2.2 (by simp) (by decide)

/-- C8: `upsertNew` creates a card with `repetitions=0`, `easeFactor=2.5`,
`intervalDays=0`, `nextReviewAt = today` when the identity is absent, is a
no-op (no error, progress untouched) when it is present, and is therefore
idempotent: a second call with the same identity leaves the store equal to
its state after the first call. -/
theorem upsertNew_idempotent (store : List Card) (identity : String)
    (day1 day2 today1 today2 : Nat) :
    ((freshCard identity day1 today1).repetitions = 0 ∧
     (freshCard identity day1 today1).easeFactor = 5/2 ∧
     (freshCard identity day1 today1).intervalDays = 0 ∧
     (freshCard identity day1 today1).nextReviewAt = today1) ∧
    (store.any (fun c => c.identity == identity) = false →
      upsertNew store identity day1 today1 =
        store ++ [freshCard identity day1 today1]) ∧
    (store.any (fun c => c.identity == identity) = true →
      upsertNew store identity day1 today1 = store) ∧
    upsertNew (upsertNew store identity day1 today1) identity day2 today2 =
      upsertNew store identity day1 today1 := by
  refine ⟨⟨rfl, rfl, rfl, rfl⟩, fun habs => ?_, fun hpres => ?_, ?_⟩
  · simp [upsertNew, habs]
  · simp [upsertNew, hpres]
  · by_cases hany : store.any (fun c => c.identity == identity) = true
    · simp [upsertNew, hany]
    · have hfalse : store.any (fun c => c.identity == identity) = false := by
        simpa using hany
      simp [upsertNew, hfalse, List.any_append, freshCard]

/-- Witness for C8: registering the same identity twice from the empty
store equals registering it once. -/
theorem upsertNew_idempotent_witness :
    upsertNew (upsertNew [] "w" 1 0) "w" 2 3 = upsertNew [] "w" 1 0 :=
  (upsertNew_idempotent [] "w" 1 2 0 3).2.2.2

/-- A raw grade outside the four defined values parses to `none`. -/
theorem parseQuality_eq_none (g : Nat) (h : 4 ≤ g) :
    parseQuality g = none := by
  rw [parseQuality, if_neg (by omega), if_neg (by omega),
    if_neg (by omega), if_neg (by omega)]

/-- C9: the Scheduler signals `InvalidQuality` for every grade outside the
four defined values and `NotFound` for an unregistered identity, surfacing
the error instead of silently defaulting; it never mutates the stored
records in place — on error the committed store is the old store unchanged
(atomicity), and on success every untargeted card is carried over into the
new store as-is. -/
theorem scheduler_error_handling (store : List Card) (identity : String)
    (g now : Nat) :
    (4 ≤ g →
      gradeReviewStore store identity g now = .error .InvalidQuality) ∧
    (parseQuality g ≠ none → findCard store identity = none →
      gradeReviewStore store identity g now = .error .NotFound) ∧
    (∀ err : SRSError, gradeReviewStore store identity g now = .error err →
      commitGrade store identity g now = store) ∧
    (∀ (s : List Card) (c : Card),
      gradeReviewStore store identity g now = .ok (s, c) →
      ∀ d ∈ store, d.identity ≠ identity → d ∈ s) := by
  refine ⟨fun h4 => ?_, fun hq hf => ?_, fun err herr => ?_,
    fun s c hok d hd hne => ?_⟩
  · rw [gradeReviewStore, parseQuality_eq_none g h4]
  · obtain ⟨q, hq'⟩ := Option.ne_none_iff_exists'.mp hq
    rw [gradeReviewStore, hq', hf]
  · unfold commitGrade
    rw [herr]
  · rcases hp : parseQuality g with _ | q
    · rw [gradeReviewStore, hp] at hok
      cases hok
    · rcases hf : findCard store identity with _ | c0
      · rw [gradeReviewStore, hp, hf] at hok
        cases hok
      · rw [gradeReviewStore, hp, hf] at hok
        simp only [Except.ok.injEq, Prod.mk.injEq] at hok
        rw [← hok.1]
        refine List.mem_map.mpr ⟨d, hd, ?_⟩
        have hbeq : (d.identity == identity) = false := by
          simpa using hne
        simp [hbeq]

/-- Witness for C9: grade 7 is outside the enumeration and is rejected. -/
theorem scheduler_error_handling_witness :
    4 ≤ 7 ∧ gradeReviewStore [] "w" 7 0 = .error .InvalidQuality :=
  ⟨by decide, (scheduler_error_handling [] "w" 7 0).1 (by decide)⟩

/-- C10: a review session presents exactly the first
`min(maxCards, |dueCards|)` due cards (so never more than `maxCards`,
default 20), and the session starts complete exactly when that number is
zero. -/
theorem reviewSession_card_cap (dueCards : List Card) (maxCards : Nat) :
    sessionCards dueCards maxCards =
      dueCards.take (min maxCards dueCards.length) ∧
    (sessionCards dueCards maxCards).length =
      min maxCards dueCards.length ∧
    (sessionCards dueCards maxCards).length ≤ maxCards ∧
    (sessionCards dueCards defaultMaxCards).length ≤ 20 ∧
    (initialSessionComplete dueCards maxCards = true ↔
      min maxCards dueCards.length = 0) ∧
    (0 < maxCards →
      (initialSessionComplete dueCards maxCards = true ↔
        dueCards = [])) := by
  have hlen : ∀ m : Nat,
      (sessionCards dueCards m).length = min m dueCards.length := by
    intro m
    simp only [sessionCards, List.length_take]
    omega
  refine ⟨rfl, hlen maxCards, ?_, ?_, ?_, fun hpos => ?_⟩
  · rw [hlen]
    omega
  · rw [hlen]
    simp only [defaultMaxCards]
    omega
  · simp [initialSessionComplete, hlen maxCards]
  · constructor
    · intro hc
      have h0 : min maxCards dueCards.length = 0 := by
        have hl := hlen maxCards
        simpa [initialSessionComplete, hl] using hc
      have hz : dueCards.length = 0 := by omega
      exact List.length_eq_zero.mp hz
    · intro hnil
      subst hnil
      simp [initialSessionComplete, sessionCards]

/-- Witness for C10: with no due cards and the default cap the session is
within the 20-card bound. -/
theorem reviewSession_card_cap_witness :
    (sessionCards [] defaultMaxCards).length ≤ 20 :=
  (reviewSession_card_cap [] defaultMaxCards).2.2.2.1

end SRS
